import Mathlib

/-!
Verification development for the multi-strategy DOM conversation extractor
(`DOMIntelligentAnalyzer`, `BaseStrategy`, `StructureStrategy`, `ReactStrategy`).

The rendered page is modelled as a tree of read-only element handles (`Elem`):
each node carries the attributes the extractor reads (tag name, id, class
attribute, text content, serialized markup, bounding-box top/bottom, the
computed-style subset compared by the confidence scorer, and the
tag/id/class data of its ancestor chain), plus its ordered children.
Functions of the source that walk the live document (`querySelectorAll('*')`,
`querySelector(...)`, `getBoundingClientRect`, `getComputedStyle`,
`parentElement`) become recursive functions over this tree or reads of the
corresponding fields.  Ambient page state (`window.location`, `document.title`,
`Date`, `DOMPurify.sanitize`, the temporary-div `innerHTML`/`textContent`
conversion) is passed in explicitly as an `Env` snapshot.

JavaScript numbers are modelled as `ℚ`; the one reachable NaN (the
average-confidence term `0 / 0` in `evaluateExtraction` when a candidate has
zero rounds) is modelled as `Option ℚ` with `none` for NaN, so that the
`score > bestScore` comparison is faithfully false for it.
-/

/-- `listStartsWith l p`: `p` is a prefix of `l` (character lists). -/
def listStartsWith : List Char → List Char → Bool
  | _, [] => true
  | [], _ :: _ => false
  | h :: hs, p :: ps => h = p && listStartsWith hs ps

/-- Substring occurrence test over character lists. -/
def listContainsSub : List Char → List Char → Bool
  | [], pat => listStartsWith [] pat
  | c :: rest, pat => listStartsWith (c :: rest) pat || listContainsSub rest pat

/-- JavaScript `s.includes(pat)`, by structural scan over the character
lists (written so that concrete instances evaluate). -/
def strContains (s pat : String) : Bool :=
  listContainsSub s.data pat.data

/-- JavaScript `s.toLowerCase()` character by character (the source only
relies on ASCII lowering for its keyword tests). -/
def strToLower (s : String) : String :=
  String.mk (s.data.map Char.toLower)

/-- JavaScript `s.trim()`: strip whitespace from both ends. -/
def strTrim (s : String) : String :=
  String.mk (((s.data.dropWhile Char.isWhitespace).reverse.dropWhile Char.isWhitespace).reverse)

/-- Splitting at every character satisfying `p`, keeping empty fragments —
JavaScript `s.split(re)` for a single-character-class regex or a
single-character separator string. -/
def splitPredAux (p : Char → Bool) : List Char → List Char → List String
  | acc, [] => [String.mk acc.reverse]
  | acc, c :: rest =>
    if p c then String.mk acc.reverse :: splitPredAux p [] rest
    else splitPredAux p (c :: acc) rest

def splitPred (p : Char → Bool) (s : String) : List String :=
  splitPredAux p [] s.data

/-- De-duplication keeping the first occurrence, in order — the behaviour of
the source's `if (!xs.includes(x)) xs.push(x)` accumulation and of iterating
a JavaScript `Set`. -/
def dedupFirst {α : Type} [DecidableEq α] : List α → List α
  | [] => []
  | a :: rest => a :: (dedupFirst rest).filter (fun b => b ≠ a)

/-- The fixed 14-property computed-style subset compared by
`StructureStrategy.calculateStyleSimilarity`. -/
structure Style where
  display : String
  position : String
  float : String
  clear : String
  width : String
  height : String
  margin : String
  padding : String
  border : String
  background : String
  color : String
  font : String
  textAlign : String
  lineHeight : String
deriving DecidableEq, Repr

/-- The 14 compared style values, in the source's property order. -/
def Style.list (s : Style) : List String :=
  [s.display, s.position, s.float, s.clear, s.width, s.height, s.margin,
   s.padding, s.border, s.background, s.color, s.font, s.textAlign, s.lineHeight]

/-- A read-only handle into the rendered tree.  `ancestors` is the upward
chain (nearest parent first) of `(tagName, id, className)` triples used by
`getElementPath`; `rectTop`/`rectBottom` are the `getBoundingClientRect`
values; the remaining string fields are the DOM attributes of the node
itself. -/
inductive Elem where
  | mk (tagName idAttr className textContent outerHTML : String)
       (rectTop rectBottom : ℚ) (style : Style)
       (ancestors : List (String × String × String))
       (children : List Elem)

mutual

def Elem.decEq : (a b : Elem) → Decidable (a = b)
  | .mk t1 i1 c1 x1 h1 rt1 rb1 s1 a1 ch1, .mk t2 i2 c2 x2 h2 rt2 rb2 s2 a2 ch2 =>
    if h : t1 = t2 ∧ i1 = i2 ∧ c1 = c2 ∧ x1 = x2 ∧ h1 = h2 ∧ rt1 = rt2 ∧ rb1 = rb2
            ∧ s1 = s2 ∧ a1 = a2 then
      match elemListDecEq ch1 ch2 with
      | Decidable.isTrue hc =>
          Decidable.isTrue (by
            obtain ⟨e1, e2, e3, e4, e5, e6, e7, e8, e9⟩ := h
            subst e1; subst e2; subst e3; subst e4; subst e5
            subst e6; subst e7; subst e8; subst e9; subst hc; rfl)
      | Decidable.isFalse hc =>
          Decidable.isFalse (by intro he; injection he; simp_all)
    else
      Decidable.isFalse (by intro he; injection he; simp_all)

def elemListDecEq : (as bs : List Elem) → Decidable (as = bs)
  | [], [] => Decidable.isTrue rfl
  | [], _ :: _ => Decidable.isFalse (by intro h; cases h)
  | _ :: _, [] => Decidable.isFalse (by intro h; cases h)
  | a :: as, b :: bs =>
    match Elem.decEq a b, elemListDecEq as bs with
    | Decidable.isTrue h1, Decidable.isTrue h2 => Decidable.isTrue (by rw [h1, h2])
    | Decidable.isFalse h1, _ => Decidable.isFalse (by intro h; injection h; contradiction)
    | _, Decidable.isFalse h2 => Decidable.isFalse (by intro h; injection h; contradiction)

end

instance : DecidableEq Elem := Elem.decEq

def Elem.tagName : Elem → String
  | .mk t _ _ _ _ _ _ _ _ _ => t

def Elem.idAttr : Elem → String
  | .mk _ i _ _ _ _ _ _ _ _ => i

def Elem.className : Elem → String
  | .mk _ _ c _ _ _ _ _ _ _ => c

def Elem.textContent : Elem → String
  | .mk _ _ _ t _ _ _ _ _ _ => t

def Elem.outerHTML : Elem → String
  | .mk _ _ _ _ h _ _ _ _ _ => h

def Elem.rectTop : Elem → ℚ
  | .mk _ _ _ _ _ t _ _ _ _ => t

def Elem.rectBottom : Elem → ℚ
  | .mk _ _ _ _ _ _ b _ _ _ => b

def Elem.style : Elem → Style
  | .mk _ _ _ _ _ _ _ s _ _ => s

def Elem.ancestors : Elem → List (String × String × String)
  | .mk _ _ _ _ _ _ _ _ a _ => a

def Elem.children : Elem → List Elem
  | .mk _ _ _ _ _ _ _ _ _ c => c

mutual

/-- All descendants of a node in document (pre-)order: the result of
`element.querySelectorAll('*')` scoped to `element`. -/
def Elem.descendants : Elem → List Elem
  | .mk _ _ _ _ _ _ _ _ _ children => descList children

def descList : List Elem → List Elem
  | [] => []
  | c :: cs => c :: (Elem.descendants c ++ descList cs)

end

/-- `Node.contains(other)`: `other` is the node itself or a descendant. -/
def elemContains (e f : Elem) : Bool :=
  decide (e = f ∨ f ∈ e.descendants)

/-! ## Conversation data model (`shared/types/conversation.ts`) -/

/-- `formatAnalysis` of an assistant message. -/
structure FormatAnalysis where
  hasCodeBlocks : Bool
  codeLanguages : List String
  hasHeadings : Bool
  headingLevels : List Nat
  hasLists : Bool
  hasTables : Bool
deriving DecidableEq, Repr

/-- `metadata.elementInfo` of a message. -/
structure ElementInfo where
  tagName : String
  className : String
deriving DecidableEq, Repr

structure MessageMetadata where
  elementInfo : ElementInfo
deriving DecidableEq, Repr

/-- `UserMessage` (role is the string `'user'` in every value the strategies
build; it is kept as a data field, as on the wire). -/
structure UserMessage where
  index : Nat
  timestamp : String
  role : String
  html : String
  text : String
  metadata : MessageMetadata
deriving DecidableEq, Repr

/-- `AssistantMessage`: as `UserMessage` plus `formatAnalysis`. -/
structure AssistantMessage where
  index : Nat
  timestamp : String
  role : String
  html : String
  text : String
  formatAnalysis : FormatAnalysis
  metadata : MessageMetadata
deriving DecidableEq, Repr

structure RoundMetadata where
  extractionConfidence : ℚ
  elementCount : Nat
deriving DecidableEq, Repr

/-- `ConversationRound`. -/
structure ConversationRound where
  index : Nat
  timestamp : String
  user : UserMessage
  assistant : AssistantMessage
  metadata : RoundMetadata
deriving DecidableEq, Repr

structure PageInfo where
  title : String
  urlHash : String
  userAgent : String
deriving DecidableEq, Repr

structure ConversationMetadata where
  sourceUrl : String
  extractedAt : String
  extractorVersion : String
  strategyUsed : String
  confidenceScore : ℚ
  pageInfo : PageInfo
deriving DecidableEq, Repr

structure ExtractionStats where
  totalRounds : Nat
  successRate : Nat
  processingTimeMs : Nat
  domElementsAnalyzed : Nat
deriving DecidableEq, Repr

/-- `ExtractedConversation`: the wire contract returned by every strategy and
by `analyze()`. -/
structure ExtractedConversation where
  version : String
  metadata : ConversationMetadata
  conversation : List ConversationRound
  extractionStats : ExtractionStats
deriving DecidableEq, Repr

/-- Explicit snapshot of the ambient page state and of the opaque external
functions the extractor consumes: `DOMPurify.sanitize`, the temporary-div
`innerHTML := s; textContent` conversion used by `ReactStrategy.extractText`,
`window.location`, `document.title`, `navigator.userAgent`,
`new Date().toISOString()` and `document.querySelectorAll('*').length`. -/
structure Env where
  sanitize : String → String
  innerText : String → String
  href : String
  title : String
  urlHash : String
  userAgent : String
  nowISO : String
  totalElements : Nat

namespace BaseStrategy

/-- The per-element filter callback of `BaseStrategy.extractMessageElements`
(lines 59–74).  Note the JavaScript truthiness guard: an element whose
`textContent` is the empty string skips the `length < 10` rejection. -/
def messageElementFilter (e : Elem) : Bool :=
  if e.textContent ≠ "" ∧ (strTrim e.textContent).length < 10 then
    false
  else
    let html := strToLower e.outerHTML
    strContains html "message" ∨ strContains html "bubble" ∨ strContains html "chat"
      ∨ strContains (strToLower e.className) "message"

/-- The de-duplication pass of `extractMessageElements`: drop a candidate
when another candidate (at a different position) contains it. -/
def dedupByContainment (cands : List Elem) : List Elem :=
  ((cands.enum.filter (fun p =>
      ! cands.enum.any (fun q => decide (q.1 ≠ p.1) && elemContains q.2 p.2))).map Prod.snd)

/-- `BaseStrategy.extractMessageElements(container)`: filter all elements
under the container by `messageElementFilter`, then de-duplicate by
ancestor containment. -/
def extractMessageElements (container : Elem) : List Elem :=
  dedupByContainment (container.descendants.filter messageElementFilter)

/-- `BaseStrategy.classifyMessage(element)`: weighted lexical/structural cue
counting; returns `"user"` iff the user score is ≥ the assistant score. -/
def classifyMessage (e : Elem) : String :=
  let html := strToLower e.outerHTML
  let className := strToLower e.className
  let text := strToLower e.textContent
  let userIndicators : List Bool :=
    [strContains className "user",
     strContains className "human",
     strContains className "question",
     strContains html "user",
     strContains text "用户" ∨ strContains text "question",
     e.descendants.any (fun d => strContains d.className "user")]
  let aiIndicators : List Bool :=
    [strContains className "assistant",
     strContains className "ai",
     strContains className "bot",
     strContains className "answer",
     strContains html "assistant",
     strContains text "assistant" ∨ strContains text "回答",
     e.descendants.any (fun d => strContains d.className "assistant")]
  let userScore := (userIndicators.filter id).length
  let aiScore := (aiIndicators.filter id).length
  if userScore ≥ aiScore then "user" else "assistant"

end BaseStrategy

namespace StructureStrategy

mutual

/-- `StructureStrategy.calculateMaxDepth(element, depth)`: returns `depth`
for a childless node, otherwise the maximum over children of the depth of
the child subtree started at `depth + 1`. -/
def calculateMaxDepth : Elem → Nat → Nat
  | .mk _ _ _ _ _ _ _ _ _ children, depth => maxDepthList children depth

def maxDepthList : List Elem → Nat → Nat
  | [], depth => depth
  | c :: cs, depth => max (calculateMaxDepth c (depth + 1)) (maxDepthList cs depth)

end

/-- `StructureStrategy.containsCode(element)`: a `pre`/`code` descendant
(HTML tag selectors match case-insensitively), a text content containing a
code fence, or markup containing `<pre>`, `<code>` or a code fence. -/
def containsCode (e : Elem) : Bool :=
  e.descendants.any (fun d => strToLower d.tagName = "pre" ∨ strToLower d.tagName = "code")
    ∨ strContains e.textContent "```"
    ∨ (strContains e.outerHTML "<pre>" ∨ strContains e.outerHTML "<code>"
        ∨ strContains e.outerHTML "```")

end StructureStrategy

/-! ## Regex scanners shared by both `analyzeFormat` implementations -/

/-- JavaScript `\w`: ASCII letters, digits and underscore. -/
def isWordChar (c : Char) : Bool := c.isAlphanum || c = '_'

/-- The backtick character (written via its code point). -/
def backtickChar : Char := Char.ofNat 96

/-- Left-to-right scan for the global regex `<h([1-6])` used by
`analyzeFormat`: each match contributes its digit (`parseInt(match.charAt(2))`);
after a match the scan resumes past it, after a failed attempt it advances by
one character. -/
def headingScan : List Char → List Nat
  | [] => []
  | '<' :: 'h' :: c :: rest =>
      if '1' ≤ c ∧ c ≤ '6' then (c.toNat - '0'.toNat) :: headingScan rest
      else headingScan ('h' :: c :: rest)
  | _ :: rest => headingScan rest

/-- Left-to-right scan for the global regex `` ```(\w+) `` used by
`analyzeFormat` to collect code-fence languages: three backticks followed by
at least one word character; `match.slice(3)` keeps the language name. -/
def codeLangScan : List Char → List String
  | [] => []
  | c :: rest =>
    if c = backtickChar then
      match h : rest with
      | c2 :: c3 :: rest2 =>
        if c2 = backtickChar ∧ c3 = backtickChar then
          let lang := rest2.takeWhile isWordChar
          if lang.isEmpty then codeLangScan rest
          else String.mk lang :: codeLangScan (rest2.drop lang.length)
        else codeLangScan rest
      | _ => codeLangScan rest
    else codeLangScan rest
termination_by l => l.length
decreasing_by
  all_goals ((try subst h) <;> simp [List.length_drop] <;> (try omega))

namespace StructureStrategy

/-- `calculateElementSignature(element)` (lines 212–249): the `|`-joined
feature list — tag, up to three class tokens, child count, text-length
bucket, and code/list/image flags. -/
def calculateElementSignature (element : Elem) : String :=
  let classes := (splitPred Char.isWhitespace element.className).filter (fun s => s ≠ "")
  let textLength := element.textContent.length
  let features : List String :=
    ("tag:" ++ strToLower element.tagName)
      :: ((classes.take 3).map (fun cls => "cls:" ++ cls)
      ++ ["children:" ++ toString element.children.length]
      ++ [if textLength < 100 then "text:short"
          else if textLength < 500 then "text:medium" else "text:long"]
      ++ (if containsCode element then ["has:code"] else [])
      ++ (if element.descendants.any (fun d =>
            strToLower d.tagName = "ul" ∨ strToLower d.tagName = "ol" ∨ strToLower d.tagName = "li")
          then ["has:list"] else [])
      ++ (if element.descendants.any (fun d => strToLower d.tagName = "img")
          then ["has:img"] else []))
  String.intercalate "|" features

/-- `isSimilarSignature(sig1, sig2)` (lines 254–264): Jaccard similarity of
the two `|`-separated feature sets, strictly above the 0.6 threshold. -/
def isSimilarSignature (sig1 sig2 : String) : Bool :=
  let features1 := dedupFirst (splitPred (fun c => c = Char.ofNat 124) sig1)
  let features2 := dedupFirst (splitPred (fun c => c = Char.ofNat 124) sig2)
  let intersection := features1.filter (fun x => features2.contains x)
  let union := dedupFirst (features1 ++ features2)
  decide ((intersection.length : ℚ) / (union.length : ℚ) > 6/10)

/-- The per-element callback of the candidate filter of
`findMessageClusters` (lines 142–157): keep an element when (trimmed text
length ≥ 20 or it contains code) and (it has children or subtree depth > 2)
and its trimmed text length exceeds 10. -/
def clusterCandidateFilter (element : Elem) : Bool :=
  let text := strTrim element.textContent
  if text.length < 20 ∧ ¬ (containsCode element = true) then false
  else
    let children := element.children.length
    let depth := calculateMaxDepth element 0
    let hasComplexContent := children > 0 ∨ depth > 2
    decide hasComplexContent && decide (text.length > 10)

/-- The candidate list of `findMessageClusters` (lines 139–159): all
elements under the container passing `clusterCandidateFilter`.  The 4.2
`extractMessageElements` filter is not consulted here. -/
def candidateElements (container : Elem) : List Elem :=
  container.descendants.filter clusterCandidateFilter

/-- The sibling-extension loop of `findMessageClusters` (lines 179–185 for
previous siblings, 189–195 for next siblings), over the sibling sequence in
walk order.  The `while` condition stops the walk when the next sibling is
missing, is not a candidate, or is already processed; a sibling that merely
fails the signature-similarity test inside the loop body is passed over
(neither added to the cluster nor marked processed) and the walk continues
with the sibling beyond it.  Returns the elements added to the cluster in
walk order, together with the updated processed set. -/
def siblingWalk (candidates : List Elem) (elementSignature : String) :
    List Elem → List Elem → List Elem × List Elem
  | processed, [] => ([], processed)
  | processed, s :: rest =>
    if s ∈ candidates ∧ s ∉ processed then
      if isSimilarSignature elementSignature (calculateElementSignature s) then
        let r := siblingWalk candidates elementSignature (processed ++ [s]) rest
        (s :: r.1, r.2)
      else siblingWalk candidates elementSignature processed rest
    else ([], processed)

/-- `extractText(element)`: trimmed text content. -/
def extractText (element : Elem) : String := strTrim element.textContent

/-- `StructureStrategy.analyzeFormat(element)` (lines 426–461). -/
def analyzeFormat (element : Elem) : FormatAnalysis :=
  let html := element.outerHTML
  { hasCodeBlocks := containsCode element
    codeLanguages := dedupFirst (codeLangScan html.data)
    hasHeadings := decide (headingScan html.data ≠ [])
    headingLevels := dedupFirst (headingScan html.data)
    hasLists := element.descendants.any (fun d =>
      strToLower d.tagName = "ul" ∨ strToLower d.tagName = "ol" ∨ strToLower d.tagName = "li")
    hasTables := element.descendants.any (fun d => strToLower d.tagName = "table") }

/-- One `tag#id.class1.class2` component of `getElementPath`. -/
def pathPart (tic : String × String × String) : String :=
  strToLower tic.1
    ++ (if tic.2.1 = "" then "" else "#" ++ tic.2.1)
    ++ (if tic.2.2 = "" then ""
        else "." ++ String.intercalate "." (splitPred (fun c => c = ' ') tic.2.2))

/-- `getElementPath(element)` (lines 490–503): path components of the element
and of up to 4 ancestors, outermost first (the source `unshift`s each level).
The source joins the components with `' > '` and `calculatePathSimilarity`
splits them again; that round trip is modelled as the identity on the
component list. -/
def getElementPath (element : Elem) : List String :=
  (((element.tagName, element.idAttr, element.className)
      :: element.ancestors.take 4).map pathPart).reverse

/-- `calculatePathSimilarity(path1, path2)` (lines 505–519):
position-aligned component matches divided by the longer path length. -/
def calculatePathSimilarity (parts1 parts2 : List String) : ℚ :=
  let matchCount := ((parts1.zip parts2).filter (fun p => p.1 == p.2)).length
  (matchCount : ℚ) / ((max parts1.length parts2.length : Nat) : ℚ)

/-- `calculateStyleSimilarity(element1, element2)` (lines 521–540): the
fraction of the fixed 14-property computed-style subset on which the two
elements agree. -/
def calculateStyleSimilarity (element1 element2 : Elem) : ℚ :=
  let matchCount :=
    ((element1.style.list.zip element2.style.list).filter (fun p => p.1 == p.2)).length
  (matchCount : ℚ) / 14

/-- `calculateStructureConfidence(userElement, assistantElement)`
(lines 463–488): base 0.6, plus path-similarity, position and
style-similarity adjustments, capped at 0.95. -/
def calculateStructureConfidence (userElement assistantElement : Elem) : ℚ :=
  let confidence : ℚ := 0.6
  let userPath := getElementPath userElement
  let assistantPath := getElementPath assistantElement
  let pathSimilarity := calculatePathSimilarity userPath assistantPath
  let confidence := confidence + pathSimilarity * 0.2
  let confidence :=
    if assistantElement.rectTop > userElement.rectBottom
        ∧ assistantElement.rectTop - userElement.rectBottom < 500 then
      confidence + 0.15
    else confidence
  let confidence :=
    confidence + calculateStyleSimilarity userElement assistantElement * 0.15
  min confidence 0.95

/-- `StructureStrategy.createConversationRound(index, userElement,
assistantElement)` (lines 337–379). -/
def createConversationRound (env : Env) (index : Nat)
    (userElement assistantElement : Elem) : ConversationRound :=
  { index
    timestamp := env.nowISO
    user := { index
              timestamp := env.nowISO
              role := "user"
              html := env.sanitize userElement.outerHTML
              text := extractText userElement
              metadata := { elementInfo := { tagName := userElement.tagName
                                             className := userElement.className } } }
    assistant := { index
                   timestamp := env.nowISO
                   role := "assistant"
                   html := env.sanitize assistantElement.outerHTML
                   text := extractText assistantElement
                   formatAnalysis := analyzeFormat assistantElement
                   metadata := { elementInfo := { tagName := assistantElement.tagName
                                                  className := assistantElement.className } } }
    metadata := { extractionConfidence :=
                    calculateStructureConfidence userElement assistantElement
                  elementCount := 2 } }

/-- `StructureStrategy.createExtractedConversation(conversation)`
(lines 384–411): wraps the rounds, setting `confidenceScore` to the mean of
the round confidences (0 when there are none). -/
def createExtractedConversation (env : Env)
    (conversation : List ConversationRound) : ExtractedConversation :=
  let confidenceScore : ℚ :=
    if conversation.length > 0 then
      (conversation.foldl (fun sum round => sum + round.metadata.extractionConfidence) 0)
        / (conversation.length : ℚ)
    else 0
  { version := "1.0"
    metadata := { sourceUrl := env.href
                  extractedAt := env.nowISO
                  extractorVersion := "1.0.0"
                  strategyUsed := "structure-analysis"
                  confidenceScore
                  pageInfo := { title := env.title
                                urlHash := env.urlHash
                                userAgent := env.userAgent } }
    conversation
    extractionStats := { totalRounds := conversation.length
                         successRate := if conversation.length > 0 then 100 else 0
                         processingTimeMs := 0
                         domElementsAnalyzed := env.totalElements } }

/-- The indexed loop of `fallbackToSequentialPairing` (lines 310–329),
iterating over the remaining suffix of `elements` with `i` its absolute
position: a user-classified element is remembered (overwriting any previous
one); an assistant-classified element is paired with the remembered user
only when `i - elements.indexOf(user) ≤ 3`, otherwise it is ignored and the
remembered user kept. -/
def fallbackSeqAux (env : Env) (elements : List Elem) :
    List Elem → Nat → Option Elem → List ConversationRound → List ConversationRound
  | [], _, _, conversation => conversation
  | element :: rest, i, userElement, conversation =>
    let role := BaseStrategy.classifyMessage element
    if role = "user" then
      fallbackSeqAux env elements rest (i + 1) (some element) conversation
    else
      match userElement with
      | some u =>
        if role = "assistant" then
          if i - elements.indexOf u ≤ 3 then
            fallbackSeqAux env elements rest (i + 1) none
              (conversation ++ [createConversationRound env (conversation.length + 1) u element])
          else
            fallbackSeqAux env elements rest (i + 1) (some u) conversation
        else fallbackSeqAux env elements rest (i + 1) (some u) conversation
      | none => fallbackSeqAux env elements rest (i + 1) none conversation

/-- `fallbackToSequentialPairing` (lines 304–332) over the filtered element
list (the source obtains `elements` as `extractMessageElements(container)`
and then only uses that list). -/
def fallbackToSequentialPairing (env : Env) (elements : List Elem) :
    List ConversationRound :=
  fallbackSeqAux env elements elements 0 none []

end StructureStrategy

namespace ReactStrategy

/-- A visited node of the retained component tree with resolved props:
`type` is the resolved type name (`type` itself when it is a string, else
`displayName || name || ''`), with `none` for a falsy `type`; `propKeys` are
the keys of `memoizedProps`; `roleProp` is the value of the `role` prop when
it is a string. -/
structure ComponentNode where
  type : Option String
  propKeys : List String
  roleProp : Option String
deriving DecidableEq, Repr

/-- `ReactStrategy.isMessageComponent(type, props)` (lines 648–667): any of
the six indicators — type name containing "message"/"chat"/"bubble", a prop
key containing "message", a prop key containing "role", or a `role` prop
equal to `'user'` or `'assistant'`. -/
def isMessageComponent (c : ComponentNode) : Bool :=
  match c.type with
  | none => false
  | some tn =>
    let typeName := strToLower tn
    strContains typeName "message" ∨ strContains typeName "chat"
      ∨ strContains typeName "bubble"
      ∨ c.propKeys.any (fun key => strContains (strToLower key) "message")
      ∨ c.propKeys.any (fun key => strContains (strToLower key) "role")
      ∨ (c.roleProp = some "user" ∨ c.roleProp = some "assistant")

/-- A record emitted by the fiber traversal: `{role, content}` with the
content resolved to a string (empty when absent, as by the `|| ''` at the
use sites). -/
structure ReactMsg where
  role : String
  content : String
deriving DecidableEq, Repr

/-- `ReactStrategy.analyzeFormat(html)` (lines 882–916), the string-regex
variant. -/
def analyzeFormat (html : String) : FormatAnalysis :=
  { hasCodeBlocks := strContains html "<pre>" ∨ strContains html "<code>"
      ∨ strContains html "```"
    codeLanguages := dedupFirst (codeLangScan html.data)
    hasHeadings := decide (headingScan html.data ≠ [])
    headingLevels := dedupFirst (headingScan html.data)
    hasLists := strContains html "<ul>" ∨ strContains html "<ol>"
      ∨ strContains html "<li>"
    hasTables := strContains html "<table>" }

/-- `findCommonWords(str1, str2)` (lines 943–948): words of the lower-cased
strings split on non-`a`–`z` characters that occur in both. -/
def findCommonWords (str1 str2 : String) : List String :=
  let words1 := (splitPred (fun c => ! c.isLower) (strToLower str1)).filter (fun w => w ≠ "")
  let words2 := (splitPred (fun c => ! c.isLower) (strToLower str2)).filter (fun w => w ≠ "")
  words1.filter (fun word => words2.contains word)

/-- `ReactStrategy.calculateConfidence(userElement, assistantElement)`
(lines 918–941): base 0.7, +0.2 when the assistant box starts below the
user box, +0.1 when the non-empty class strings share a word, capped at
0.95. -/
def calculateConfidence (userElement assistantElement : Elem) : ℚ :=
  let confidence : ℚ := 0.7
  let confidence :=
    if assistantElement.rectTop > userElement.rectBottom then confidence + 0.2
    else confidence
  let confidence :=
    if userElement.className ≠ "" ∧ assistantElement.className ≠ ""
        ∧ (findCommonWords userElement.className assistantElement.className).length > 0 then
      confidence + 0.1
    else confidence
  min confidence 0.95

/-- `ReactStrategy.createConversationRound(index, userMessage,
assistantMessage)` (lines 743–785), for probe-derived records: fixed
confidence 0.9. -/
def createConversationRound (env : Env) (index : Nat)
    (userMessage assistantMessage : ReactMsg) : ConversationRound :=
  { index
    timestamp := env.nowISO
    user := { index
              timestamp := env.nowISO
              role := "user"
              html := env.sanitize userMessage.content
              text := env.innerText userMessage.content
              metadata := { elementInfo := { tagName := "div"
                                             className := "react-user-message" } } }
    assistant := { index
                   timestamp := env.nowISO
                   role := "assistant"
                   html := env.sanitize assistantMessage.content
                   text := env.innerText assistantMessage.content
                   formatAnalysis := analyzeFormat assistantMessage.content
                   metadata := { elementInfo := { tagName := "div"
                                                  className := "react-assistant-message" } } }
    metadata := { extractionConfidence := 0.9
                  elementCount := 2 } }

/-- `ReactStrategy.createConversationRoundFromElements(index, userElement,
assistantElement)` (lines 790–832). -/
def createConversationRoundFromElements (env : Env) (index : Nat)
    (userElement assistantElement : Elem) : ConversationRound :=
  { index
    timestamp := env.nowISO
    user := { index
              timestamp := env.nowISO
              role := "user"
              html := env.sanitize userElement.outerHTML
              text := env.innerText userElement.textContent
              metadata := { elementInfo := { tagName := userElement.tagName
                                             className := userElement.className } } }
    assistant := { index
                   timestamp := env.nowISO
                   role := "assistant"
                   html := env.sanitize assistantElement.outerHTML
                   text := env.innerText assistantElement.textContent
                   formatAnalysis := analyzeFormat assistantElement.outerHTML
                   metadata := { elementInfo := { tagName := assistantElement.tagName
                                                  className := assistantElement.className } } }
    metadata := { extractionConfidence := calculateConfidence userElement assistantElement
                  elementCount := 2 } }

/-- `ReactStrategy.createExtractedConversation(conversation, strategyUsed)`
(lines 837–867). -/
def createExtractedConversation (env : Env)
    (conversation : List ConversationRound) (strategyUsed : String) :
    ExtractedConversation :=
  let confidenceScore : ℚ :=
    if conversation.length > 0 then
      (conversation.foldl (fun sum round => sum + round.metadata.extractionConfidence) 0)
        / (conversation.length : ℚ)
    else 0
  { version := "1.0"
    metadata := { sourceUrl := env.href
                  extractedAt := env.nowISO
                  extractorVersion := "1.0.0"
                  strategyUsed
                  confidenceScore
                  pageInfo := { title := env.title
                                urlHash := env.urlHash
                                userAgent := env.userAgent } }
    conversation
    extractionStats := { totalRounds := conversation.length
                         successRate := if conversation.length > 0 then 100 else 0
                         processingTimeMs := 0
                         domElementsAnalyzed := env.totalElements } }

/-- The `forEach` loop of `ReactStrategy.extractFromDOM` (lines 721–735),
iterating over the remaining suffix of `elements`: a user-classified element
is remembered; an assistant-classified element is paired with the remembered
user unconditionally (no gap check) and the memory cleared. -/
def extractFromDOMAux (env : Env) :
    List Elem → Option Elem → List ConversationRound → List ConversationRound
  | [], _, conversation => conversation
  | element :: rest, userMessage, conversation =>
    let role := BaseStrategy.classifyMessage element
    if role = "user" then
      extractFromDOMAux env rest (some element) conversation
    else
      match userMessage with
      | some u =>
        if role = "assistant" then
          extractFromDOMAux env rest none
            (conversation ++ [createConversationRoundFromElements env
              (conversation.length + 1) u element])
        else extractFromDOMAux env rest (some u) conversation
      | none => extractFromDOMAux env rest none conversation

/-- `ReactStrategy.extractFromDOM(container)` (lines 716–738) over the
filtered element list (the source obtains `elements` as
`extractMessageElements(container)` and then only uses that list). -/
def extractFromDOM (env : Env) (elements : List Elem) : ExtractedConversation :=
  createExtractedConversation env (extractFromDOMAux env elements none []) "dom-fallback"

end ReactStrategy

namespace DOMIntelligentAnalyzer

/-- `DOMIntelligentAnalyzer.evaluateExtraction(result)` (lines 71–97) as an
IEEE-aware score: `none` models NaN.  With zero rounds the
average-confidence term is `0 / 0 = NaN` (the `reduce` starts from 0, so
the numerator is exactly 0 there) and NaN propagates through the remaining
additions; otherwise the score is the rational value. -/
def evaluateExtraction (result : ExtractedConversation) : Option ℚ :=
  if result.conversation.length = 0 then none
  else
    let roundsTerm : ℚ := (min (result.conversation.length * 10) 30 : Nat)
    let avgConfidence : ℚ :=
      (result.conversation.foldl (fun sum round => sum + round.metadata.extractionConfidence) 0)
        / (result.conversation.length : ℚ)
    let hasCodeBlocks :=
      result.conversation.any (fun round => round.assistant.formatAnalysis.hasCodeBlocks)
    let hasHeadings :=
      result.conversation.any (fun round => round.assistant.formatAnalysis.hasHeadings)
    some (roundsTerm + avgConfidence * 40
      + (if hasCodeBlocks then 15 else 0) + (if hasHeadings then 15 else 0))

/-- JavaScript `score > bestScore` for a possibly-NaN score: false for NaN. -/
def jgt (score : Option ℚ) (bestScore : ℚ) : Bool :=
  match score with
  | none => false
  | some s => decide (s > bestScore)

/-- The running state of the strategy loop in `analyze()`:
`bestResult`/`bestScore` (lines 34–35). -/
structure AnalyzeAcc where
  bestResult : Option ExtractedConversation
  bestScore : ℚ
deriving DecidableEq, Repr

/-- One iteration of the strategy loop of `analyze()` (lines 38–52): a
strategy that threw is caught and skipped; a returned result replaces the
best exactly when its score is strictly greater (NaN never is). -/
def analyzeStep (acc : AnalyzeAcc) (outcome : Except String ExtractedConversation) :
    AnalyzeAcc :=
  match outcome with
  | .error _ => acc
  | .ok result =>
    match evaluateExtraction result with
    | none => acc
    | some score =>
      if score > acc.bestScore then { bestResult := some result, bestScore := score }
      else acc

/-- `DOMIntelligentAnalyzer.validateAndEnhance(result)` (lines 102–124):
drop rounds whose user or assistant text is empty after trimming, recompute
the stats fields, and refresh the page metadata.  `metadata.confidenceScore`
is left untouched. -/
def validateAndEnhance (env : Env) (result : ExtractedConversation) :
    ExtractedConversation :=
  let conversation := result.conversation.filter (fun round =>
    decide ((strTrim round.user.text).length > 0)
      && decide ((strTrim round.assistant.text).length > 0))
  { result with
    conversation
    extractionStats := { result.extractionStats with
      totalRounds := conversation.length
      successRate := if conversation.length > 0 then 100 else 0
      domElementsAnalyzed := env.totalElements }
    metadata := { result.metadata with
      extractedAt := env.nowISO
      sourceUrl := env.href
      pageInfo := { title := env.title
                    urlHash := env.urlHash
                    userAgent := env.userAgent } } }

/-- `DOMIntelligentAnalyzer.analyze()` (lines 31–66) over the outcomes of
the registered strategies' `execute()` calls in registration order (a thrown
strategy error appears as `Except.error`): keep the strictly-best-scoring
result; throw the terminal error when none was kept; otherwise validate the
winner and stamp the elapsed processing time. -/
def analyze (env : Env) (processingTime : Nat)
    (results : List (Except String ExtractedConversation)) :
    Except String ExtractedConversation :=
  let acc := results.foldl analyzeStep { bestResult := none, bestScore := 0 }
  match acc.bestResult with
  | none => Except.error "所有提取策略均失败"
  | some bestResult =>
    let validated := validateAndEnhance env bestResult
    Except.ok { validated with
      extractionStats := { validated.extractionStats with
        processingTimeMs := processingTime } }

end DOMIntelligentAnalyzer

/-! ## Spec-side definitions used to state and refute claims -/

/-- The arithmetic mean of `metadata.extractionConfidence` over a round list,
0 when the list is empty — the quantity the specification asserts for
`metadata.confidenceScore` of the returned conversation. -/
def roundConfidenceMean (conversation : List ConversationRound) : ℚ :=
  if conversation.length > 0 then
    (conversation.foldl (fun sum round => sum + round.metadata.extractionConfidence) 0)
      / (conversation.length : ℚ)
  else 0

/-- The claimed matching condition for `isMessageComponent`, following the
specification's wording: type name or any prop key contains
"message"/"chat"/"bubble", or a role prop equals "user"/"assistant".
(To be compared with the implementation's `ReactStrategy.isMessageComponent`.) -/
def isMessageComponentClaim (c : ReactStrategy.ComponentNode) : Bool :=
  match c.type with
  | none => false
  | some tn =>
    let typeName := strToLower tn
    strContains typeName "message" ∨ strContains typeName "chat"
      ∨ strContains typeName "bubble"
      ∨ c.propKeys.any (fun key => strContains (strToLower key) "message"
          ∨ strContains (strToLower key) "chat" ∨ strContains (strToLower key) "bubble")
      ∨ (c.roleProp = some "user" ∨ c.roleProp = some "assistant")

/-- The pairing property claimed for the structural sequential fallback: an
emitted round pairs a remembered user `u` with an assistant-classified
element whose position in the filtered list is at most
`elements.indexOf u + 3` (the user index exactly as the source computes it). -/
def gapBounded (env : Env) (elements : List Elem) (round : ConversationRound) : Prop :=
  ∃ u a k i, ∃ hi : i < elements.length,
    elements.get ⟨i, hi⟩ = a
      ∧ round = StructureStrategy.createConversationRound env k u a
      ∧ BaseStrategy.classifyMessage a = "assistant"
      ∧ i ≤ elements.indexOf u + 3

/-- The pairing property of `ReactStrategy.extractFromDOM`: every emitted
round pairs the element remembered at position `j` with the
assistant-classified element immediately after it (so the assistant index
`j + 1` never exceeds the user index plus 3). -/
def adjacentPaired (env : Env) (elements : List Elem) (round : ConversationRound) : Prop :=
  ∃ u a k j, ∃ hj : j + 1 < elements.length,
    elements.get ⟨j, Nat.lt_of_succ_lt hj⟩ = u
      ∧ elements.get ⟨j + 1, hj⟩ = a
      ∧ round = ReactStrategy.createConversationRoundFromElements env k u a
      ∧ BaseStrategy.classifyMessage a = "assistant"

/-! ## Concrete data for witnesses and counterexamples -/

/-- A fixed computed-style record. -/
def style0 : Style :=
  { display := "block", position := "static", float := "none", clear := "none",
    width := "auto", height := "auto", margin := "0px", padding := "0px",
    border := "none", background := "none", color := "black",
    font := "16px serif", textAlign := "left", lineHeight := "normal" }

/-- Shorthand for a concrete element with no id, zero box and no ancestors. -/
def mkElem (tag cls text html : String) (children : List Elem) : Elem :=
  Elem.mk tag "" cls text html 0 0 style0 [] children

/-- A concrete page-state snapshot. -/
def envW : Env :=
  { sanitize := fun s => s, innerText := fun s => s,
    href := "https://example.test/chat", title := "chat", urlHash := "",
    userAgent := "agent", nowISO := "2026-01-01T00:00:00.000Z", totalElements := 42 }

/-- A user-classified element. -/
def eU4 : Elem :=
  mkElem "DIV" "user-question" "What is it????" "<div class=\"user-question\">q</div>" []

/-- An assistant-classified element. -/
def eA4 : Elem :=
  mkElem "DIV" "assistant-answer" "It is four." "<div class=\"assistant-answer\">a</div>" []

/-- Seed element for the clustering-walk counterexample. -/
def seed5 : Elem :=
  mkElem "DIV" "msg row" "The quick brown fox jumps over the lazy dog."
    "<div class=\"msg row\">x</div>"
    [mkElem "P" "" "The quick brown fox jumps over the lazy dog." "<p>x</p>" []]

/-- A candidate sibling whose signature is dissimilar to the seed's. -/
def e1five : Elem :=
  mkElem "DIV" "toolbar wide" "How vexingly quick daft zebras jump today."
    "<div class=\"toolbar wide\">y</div>"
    [mkElem "SPAN" "" "How vexingly quick daft zebras jump today." "<span>y</span>" []]

/-- A candidate sibling beyond `e1five` whose signature matches the seed's. -/
def e2five : Elem :=
  mkElem "DIV" "msg row" "Pack my box with five dozen liquor jugs."
    "<div class=\"msg row\">z</div>"
    [mkElem "P" "" "Pack my box with five dozen liquor jugs." "<p>z</p>" []]

/-- Container whose children are `e2five`, `e1five`, `seed5` in document
order, so that `seed5`'s previous-sibling walk sequence is
`[e1five, e2five]`. -/
def container5 : Elem :=
  mkElem "MAIN" "" "page" "<main>p</main>" [e2five, e1five, seed5]

/-- The seed's signature. -/
def sigSeed5 : String := StructureStrategy.calculateElementSignature seed5

/-- A clustering candidate with no message-ish keyword anywhere. -/
def e6cand : Elem :=
  mkElem "DIV" "content-row" "Just some plain page content here."
    "<div class=\"content-row\">t</div>"
    [mkElem "SPAN" "" "Just some plain page content here." "<span>t</span>" []]

def container6 : Elem :=
  mkElem "MAIN" "" "Just some plain page content here." "<main>t</main>" [e6cand]

/-- An empty format analysis. -/
def fa0 : FormatAnalysis :=
  { hasCodeBlocks := false, codeLanguages := [], hasHeadings := false,
    headingLevels := [], hasLists := false, hasTables := false }

/-- A valid round with confidence 1. -/
def r7a : ConversationRound :=
  { index := 1, timestamp := "t1",
    user := { index := 1, timestamp := "t1", role := "user", html := "<p>hi</p>",
              text := "hi there",
              metadata := { elementInfo := { tagName := "DIV", className := "user" } } },
    assistant := { index := 1, timestamp := "t1", role := "assistant",
                   html := "<p>ok</p>", text := "fine answer", formatAnalysis := fa0,
                   metadata := { elementInfo := { tagName := "DIV", className := "assistant" } } },
    metadata := { extractionConfidence := 1, elementCount := 2 } }

/-- A round with confidence 0 whose user text is blank after trimming; the
validation pass drops it. -/
def r7b : ConversationRound :=
  { index := 2, timestamp := "t2",
    user := { index := 2, timestamp := "t2", role := "user", html := "<p> </p>",
              text := "   ",
              metadata := { elementInfo := { tagName := "DIV", className := "user" } } },
    assistant := { index := 2, timestamp := "t2", role := "assistant",
                   html := "<p>a</p>", text := "some answer", formatAnalysis := fa0,
                   metadata := { elementInfo := { tagName := "DIV", className := "assistant" } } },
    metadata := { extractionConfidence := 0, elementCount := 2 } }

/-- A strategy result with rounds of confidence 1 and 0, so
`confidenceScore = 1/2`. -/
def c7 : ExtractedConversation :=
  StructureStrategy.createExtractedConversation envW [r7a, r7b]

/-- What `analyze` returns for `[Except.ok c7]` with elapsed time 5. -/
def r7final : ExtractedConversation :=
  { DOMIntelligentAnalyzer.validateAndEnhance envW c7 with
    extractionStats := { (DOMIntelligentAnalyzer.validateAndEnhance envW c7).extractionStats with
      processingTimeMs := 5 } }

/-- A strategy result with no rounds at all. -/
def cEmpty : ExtractedConversation :=
  StructureStrategy.createExtractedConversation envW []

/-- A component node whose only indicator is a prop key containing "role". -/
def c9node : ReactStrategy.ComponentNode :=
  { type := some "Row", propKeys := ["userRole"], roleProp := none }

/-- An element with empty text whose markup carries the "message" keyword. -/
def e10 : Elem :=
  Elem.mk "DIV" "" "message" "" "<div class=\"message\"></div>" 0 0 style0 [] []

def container10 : Elem :=
  mkElem "MAIN" "" "hello page" "<main>h</main>" [e10]

instance exceptDecEq {ε α : Type} [DecidableEq ε] [DecidableEq α] :
    DecidableEq (Except ε α) := fun x y =>
  match x, y with
  | .error e1, .error e2 =>
    if h : e1 = e2 then Decidable.isTrue (by rw [h])
    else Decidable.isFalse (by intro he; injection he; contradiction)
  | .ok a1, .ok a2 =>
    if h : a1 = a2 then Decidable.isTrue (by rw [h])
    else Decidable.isFalse (by intro he; injection he; contradiction)
  | .error _, .ok _ => Decidable.isFalse (by intro he; cases he)
  | .ok _, .error _ => Decidable.isFalse (by intro he; cases he)

/-! ## Lemmas about the orchestrator loop -/

namespace DOMIntelligentAnalyzer

theorem analyzeStep_error (acc : AnalyzeAcc) (e : String) :
    analyzeStep acc (Except.error e) = acc := rfl

theorem analyzeStep_ok (acc : AnalyzeAcc) (result : ExtractedConversation) :
    analyzeStep acc (Except.ok result)
      = match evaluateExtraction result with
        | none => acc
        | some score =>
          if score > acc.bestScore then { bestResult := some result, bestScore := score }
          else acc := rfl

theorem analyzeStep_bestResult_none {acc : AnalyzeAcc}
    {r : Except String ExtractedConversation}
    (h : (analyzeStep acc r).bestResult = none) : acc.bestResult = none := by
  cases r with
  | error e => exact h
  | ok result =>
    rw [analyzeStep_ok] at h
    cases hev : evaluateExtraction result with
    | none => simp only [hev] at h; exact h
    | some s =>
      simp only [hev] at h
      by_cases hgt : s > acc.bestScore
      · simp [hgt] at h
      · simp only [if_neg hgt] at h; exact h

theorem foldl_bestResult_none {results : List (Except String ExtractedConversation)} :
    ∀ {acc : AnalyzeAcc}, ((results.foldl analyzeStep acc).bestResult = none) →
      acc.bestResult = none := by
  induction results with
  | nil => intro acc h; exact h
  | cons r rest ih => intro acc h; exact analyzeStep_bestResult_none (ih h)

theorem evaluateExtraction_some_nonempty {result : ExtractedConversation} {s : ℚ}
    (h : evaluateExtraction result = some s) : result.conversation ≠ [] := by
  intro hnil
  unfold evaluateExtraction at h
  rw [hnil] at h
  simp at h

theorem foldl_none_iff (results : List (Except String ExtractedConversation)) :
    ((results.foldl analyzeStep { bestResult := none, bestScore := 0 }).bestResult = none) ↔
      (∀ c, Except.ok c ∈ results → ∀ s, evaluateExtraction c = some s → s ≤ 0) := by
  induction results with
  | nil => simp
  | cons r rest ih =>
    cases r with
    | error e =>
      simp only [List.foldl_cons, analyzeStep_error]
      rw [ih]
      constructor
      · intro h c hc s hs
        rcases List.mem_cons.mp hc with hc1 | hc2
        · cases hc1
        · exact h c hc2 s hs
      · intro h c hc s hs
        exact h c (List.mem_cons_of_mem _ hc) s hs
    | ok c0 =>
      simp only [List.foldl_cons]
      cases hev : evaluateExtraction c0 with
      | none =>
        have hstep : analyzeStep { bestResult := none, bestScore := 0 } (Except.ok c0)
            = { bestResult := none, bestScore := 0 } := by
          simp only [analyzeStep_ok, hev]
        rw [hstep, ih]
        constructor
        · intro h c hc s hs
          rcases List.mem_cons.mp hc with hc1 | hc2
          · injection hc1 with hc1; subst hc1; rw [hev] at hs; cases hs
          · exact h c hc2 s hs
        · intro h c hc s hs
          exact h c (List.mem_cons_of_mem _ hc) s hs
      | some s0 =>
        by_cases hpos : s0 > 0
        · have hstep : analyzeStep { bestResult := none, bestScore := 0 } (Except.ok c0)
              = { bestResult := some c0, bestScore := s0 } := by
            simp only [analyzeStep_ok, hev]
            simp [hpos]
          rw [hstep]
          constructor
          · intro h
            exfalso
            have := foldl_bestResult_none h
            simp at this
          · intro h
            exfalso
            have := h c0 (List.mem_cons_self _ _) s0 hev
            linarith
        · have hstep : analyzeStep { bestResult := none, bestScore := 0 } (Except.ok c0)
              = { bestResult := none, bestScore := 0 } := by
            simp only [analyzeStep_ok, hev]
            simp [hpos]
          rw [hstep, ih]
          constructor
          · intro h c hc s hs
            rcases List.mem_cons.mp hc with hc1 | hc2
            · injection hc1 with hc1; subst hc1
              rw [hev] at hs; injection hs with hs; subst hs; linarith
            · exact h c hc2 s hs
          · intro h c hc s hs
            exact h c (List.mem_cons_of_mem _ hc) s hs

theorem foldl_bestResult_mem {results : List (Except String ExtractedConversation)} :
    ∀ {acc : AnalyzeAcc} {c : ExtractedConversation},
      ((results.foldl analyzeStep acc).bestResult = some c) →
      acc.bestResult = some c ∨ Except.ok c ∈ results := by
  induction results with
  | nil => intro acc c h; exact Or.inl h
  | cons r rest ih =>
    intro acc c h
    rcases ih h with h' | h'
    · cases r with
      | error e => exact Or.inl h'
      | ok result =>
        rw [analyzeStep_ok] at h'
        cases hev : evaluateExtraction result with
        | none => simp only [hev] at h'; exact Or.inl h'
        | some s =>
          simp only [hev] at h'
          by_cases hgt : s > acc.bestScore
          · rw [if_pos hgt] at h'
            simp only at h'
            injection h' with h'
            subst h'
            exact Or.inr (List.mem_cons_self _ _)
          · rw [if_neg hgt] at h'; exact Or.inl h'
    · exact Or.inr (List.mem_cons_of_mem _ h')

theorem foldl_best_nonempty {results : List (Except String ExtractedConversation)} :
    ∀ {acc : AnalyzeAcc},
      (∀ b, acc.bestResult = some b → b.conversation ≠ []) →
      ∀ c, ((results.foldl analyzeStep acc).bestResult = some c) →
        c.conversation ≠ [] := by
  induction results with
  | nil => intro acc hacc c h; exact hacc c h
  | cons r rest ih =>
    intro acc hacc c h
    refine ih ?_ c h
    intro b hb
    cases r with
    | error e => exact hacc b hb
    | ok result =>
      rw [analyzeStep_ok] at hb
      cases hev : evaluateExtraction result with
      | none => simp only [hev] at hb; exact hacc b hb
      | some s =>
        simp only [hev] at hb
        by_cases hgt : s > acc.bestScore
        · rw [if_pos hgt] at hb
          simp only at hb
          injection hb with hb
          subst hb
          exact evaluateExtraction_some_nonempty hev
        · rw [if_neg hgt] at hb; exact hacc b hb

end DOMIntelligentAnalyzer

theorem DOMIntelligentAnalyzer.analyze_cases (env : Env) (t : Nat)
    (results : List (Except String ExtractedConversation)) :
    DOMIntelligentAnalyzer.analyze env t results
      = match (results.foldl DOMIntelligentAnalyzer.analyzeStep
            { bestResult := none, bestScore := 0 }).bestResult with
        | none => Except.error "所有提取策略均失败"
        | some best =>
          Except.ok { DOMIntelligentAnalyzer.validateAndEnhance env best with
            extractionStats :=
              { (DOMIntelligentAnalyzer.validateAndEnhance env best).extractionStats with
                processingTimeMs := t } } := rfl

/-- Concrete run: `evaluateExtraction` scores the two-round result 40. -/
theorem c7_eval : DOMIntelligentAnalyzer.evaluateExtraction c7 = some 40 := by
  have hconv : c7.conversation = [r7a, r7b] := rfl
  unfold DOMIntelligentAnalyzer.evaluateExtraction
  rw [hconv]
  norm_num [r7a, r7b, fa0]

/-- Concrete run: the strategy loop keeps `c7` with score 40. -/
theorem c7_fold : ([Except.ok c7].foldl DOMIntelligentAnalyzer.analyzeStep
    { bestResult := none, bestScore := 0 })
    = { bestResult := some c7, bestScore := 40 } := by
  simp only [List.foldl_cons, List.foldl_nil, DOMIntelligentAnalyzer.analyzeStep_ok, c7_eval]
  norm_num

/-- Concrete run: `analyze` returns the validated, time-stamped result. -/
theorem c7_analyze :
    DOMIntelligentAnalyzer.analyze envW 5 [Except.ok c7] = Except.ok r7final := by
  rw [DOMIntelligentAnalyzer.analyze_cases, c7_fold]
  rfl

/-- C1: `analyze()` never lets a per-strategy exception escape — a thrown
strategy at the head of the outcome list leaves the result unchanged — and
it throws its terminal error exactly when no strategy outcome both returned
a result and scored strictly above the running best: since the running best
score stays 0 until something is kept, that is exactly when no returned
result has a (non-NaN) `evaluateExtraction` score strictly greater than 0.
Otherwise it returns the kept best result, validated, with the elapsed time
stamped. -/
theorem analyze_error_iff (env : Env) (processingTime : Nat)
    (results : List (Except String ExtractedConversation)) :
    ((∃ e, DOMIntelligentAnalyzer.analyze env processingTime results = Except.error e) ↔
      (∀ c, Except.ok c ∈ results →
        ∀ s, DOMIntelligentAnalyzer.evaluateExtraction c = some s → s ≤ 0))
    ∧ (∀ msg, DOMIntelligentAnalyzer.analyze env processingTime (Except.error msg :: results)
        = DOMIntelligentAnalyzer.analyze env processingTime results)
    ∧ (∀ best,
        ((results.foldl DOMIntelligentAnalyzer.analyzeStep
            { bestResult := none, bestScore := 0 }).bestResult = some best) →
        DOMIntelligentAnalyzer.analyze env processingTime results
          = Except.ok { DOMIntelligentAnalyzer.validateAndEnhance env best with
              extractionStats :=
                { (DOMIntelligentAnalyzer.validateAndEnhance env best).extractionStats with
                  processingTimeMs := processingTime } }) := by
  refine ⟨?_, ?_, ?_⟩
  · rw [← DOMIntelligentAnalyzer.foldl_none_iff]
    cases hacc : (results.foldl DOMIntelligentAnalyzer.analyzeStep
        { bestResult := none, bestScore := 0 }).bestResult with
    | none =>
      simp only [DOMIntelligentAnalyzer.analyze_cases, hacc]
      constructor
      · intro _; trivial
      · intro _; exact ⟨_, rfl⟩
    | some best =>
      simp only [DOMIntelligentAnalyzer.analyze_cases, hacc]
      constructor
      · rintro ⟨e, he⟩; cases he
      · intro h; cases h
  · intro msg; rfl
  · intro best hb
    simp only [DOMIntelligentAnalyzer.analyze_cases, hb]

/-- C1 witness: with a single throwing strategy, `analyze` throws the
terminal error. -/
theorem analyze_error_iff_witness :
    ∃ e, DOMIntelligentAnalyzer.analyze envW 0 [Except.error "boom"] = Except.error e :=
  (analyze_error_iff envW 0 [Except.error "boom"]).1.mpr (by
    intro c hc s _
    rcases List.mem_cons.mp hc with h1 | h1
    · cases h1
    · cases h1)

/-- C2: every round of the conversation returned by `analyze()` has
`user.role = 'user'`, `assistant.role = 'assistant'` (given that the
strategy outcomes carry only such rounds, which the TypeScript literal
types `'user'`/`'assistant'` enforce for every constructed round), and both
texts non-empty after trimming — rounds violating the latter are dropped by
the `validateAndEnhance` filter before the result is returned. -/
theorem analyze_rounds_wellformed (env : Env) (processingTime : Nat)
    (results : List (Except String ExtractedConversation)) (r : ExtractedConversation)
    (hok : DOMIntelligentAnalyzer.analyze env processingTime results = Except.ok r)
    (hroles : ∀ c, Except.ok c ∈ results → ∀ round ∈ c.conversation,
        round.user.role = "user" ∧ round.assistant.role = "assistant") :
    ∀ round ∈ r.conversation,
      round.user.role = "user" ∧ round.assistant.role = "assistant"
        ∧ 0 < (strTrim round.user.text).length ∧ 0 < (strTrim round.assistant.text).length := by
  intro round hmem
  rw [DOMIntelligentAnalyzer.analyze_cases] at hok
  cases hacc : (results.foldl DOMIntelligentAnalyzer.analyzeStep
      { bestResult := none, bestScore := 0 }).bestResult with
  | none => rw [hacc] at hok; cases hok
  | some best =>
    rw [hacc] at hok
    injection hok with hok
    subst hok
    have hconv : ({ DOMIntelligentAnalyzer.validateAndEnhance env best with
        extractionStats :=
          { (DOMIntelligentAnalyzer.validateAndEnhance env best).extractionStats with
            processingTimeMs := processingTime } } : ExtractedConversation).conversation
        = best.conversation.filter (fun round =>
            decide ((strTrim round.user.text).length > 0)
              && decide ((strTrim round.assistant.text).length > 0)) := rfl
    rw [hconv] at hmem
    obtain ⟨hmem', hpred⟩ := List.mem_filter.mp hmem
    have hbestmem : Except.ok best ∈ results := by
      rcases DOMIntelligentAnalyzer.foldl_bestResult_mem hacc with h | h
      · cases h
      · exact h
    have hr := hroles best hbestmem round hmem'
    simp only [Bool.and_eq_true, decide_eq_true_eq] at hpred
    exact ⟨hr.1, hr.2, hpred.1, hpred.2⟩

/-- C2 witness: the surviving round of the concrete run is well-formed. -/
theorem analyze_rounds_wellformed_witness :
    r7a.user.role = "user" ∧ r7a.assistant.role = "assistant"
      ∧ 0 < (strTrim r7a.user.text).length ∧ 0 < (strTrim r7a.assistant.text).length :=
  analyze_rounds_wellformed envW 5 [Except.ok c7] r7final c7_analyze
    (by
      intro c hc
      rcases List.mem_cons.mp hc with h1 | h1
      · injection h1 with h1
        subst h1
        decide
      · cases h1)
    r7a (by decide)

/-- C3: a candidate with zero rounds has NaN `evaluateExtraction` score
(the average-confidence term divides by the round count with no zero
guard), so it never satisfies the strict `score > bestScore` comparison for
any running best, and the strategy loop of `analyze()` never keeps a
zero-round result as `bestResult`. -/
theorem zero_round_candidate_never_best
    (results : List (Except String ExtractedConversation)) :
    (∀ c : ExtractedConversation, c.conversation = [] →
      ∀ bestScore : ℚ,
        DOMIntelligentAnalyzer.jgt (DOMIntelligentAnalyzer.evaluateExtraction c) bestScore
          = false)
    ∧ (∀ c, ((results.foldl DOMIntelligentAnalyzer.analyzeStep
          { bestResult := none, bestScore := 0 }).bestResult = some c) →
        c.conversation ≠ []) := by
  constructor
  · intro c hc bestScore
    have hev : DOMIntelligentAnalyzer.evaluateExtraction c = none := by
      simp [DOMIntelligentAnalyzer.evaluateExtraction, hc]
    rw [hev]
    rfl
  · intro c hc
    exact DOMIntelligentAnalyzer.foldl_best_nonempty (by intro b hb; cases hb) c hc

/-- C3 witness: the concrete zero-round result never beats a best score of
0. -/
theorem zero_round_candidate_never_best_witness :
    DOMIntelligentAnalyzer.jgt (DOMIntelligentAnalyzer.evaluateExtraction cEmpty) 0 = false :=
  (zero_round_candidate_never_best []).1 cEmpty rfl 0

/-! ## Lemmas about the two sequential pairing loops -/

theorem fallbackSeqAux_cons_none (env : Env) (elements : List Elem) (element : Elem)
    (rest : List Elem) (i : Nat) (conv : List ConversationRound) :
    StructureStrategy.fallbackSeqAux env elements (element :: rest) i none conv
      = if BaseStrategy.classifyMessage element = "user" then
          StructureStrategy.fallbackSeqAux env elements rest (i + 1) (some element) conv
        else StructureStrategy.fallbackSeqAux env elements rest (i + 1) none conv := rfl

theorem fallbackSeqAux_cons_some (env : Env) (elements : List Elem) (element u : Elem)
    (rest : List Elem) (i : Nat) (conv : List ConversationRound) :
    StructureStrategy.fallbackSeqAux env elements (element :: rest) i (some u) conv
      = if BaseStrategy.classifyMessage element = "user" then
          StructureStrategy.fallbackSeqAux env elements rest (i + 1) (some element) conv
        else if BaseStrategy.classifyMessage element = "assistant" then
          if i - elements.indexOf u ≤ 3 then
            StructureStrategy.fallbackSeqAux env elements rest (i + 1) none
              (conv ++ [StructureStrategy.createConversationRound env
                (conv.length + 1) u element])
          else StructureStrategy.fallbackSeqAux env elements rest (i + 1) (some u) conv
        else StructureStrategy.fallbackSeqAux env elements rest (i + 1) (some u) conv := rfl

theorem extractFromDOMAux_cons_none (env : Env) (element : Elem)
    (rest : List Elem) (conv : List ConversationRound) :
    ReactStrategy.extractFromDOMAux env (element :: rest) none conv
      = if BaseStrategy.classifyMessage element = "user" then
          ReactStrategy.extractFromDOMAux env rest (some element) conv
        else ReactStrategy.extractFromDOMAux env rest none conv := rfl

theorem extractFromDOMAux_cons_some (env : Env) (element u : Elem)
    (rest : List Elem) (conv : List ConversationRound) :
    ReactStrategy.extractFromDOMAux env (element :: rest) (some u) conv
      = if BaseStrategy.classifyMessage element = "user" then
          ReactStrategy.extractFromDOMAux env rest (some element) conv
        else if BaseStrategy.classifyMessage element = "assistant" then
          ReactStrategy.extractFromDOMAux env rest none
            (conv ++ [ReactStrategy.createConversationRoundFromElements env
              (conv.length + 1) u element])
        else ReactStrategy.extractFromDOMAux env rest (some u) conv := rfl

theorem classifyMessage_cases (e : Elem) :
    BaseStrategy.classifyMessage e = "user" ∨ BaseStrategy.classifyMessage e = "assistant" := by
  unfold BaseStrategy.classifyMessage
  exact ite_eq_or_eq _ _ _

theorem fallbackSeqAux_rounds (env : Env) (elements : List Elem) :
    ∀ (rest : List Elem) (i : Nat) (ue : Option Elem) (conv : List ConversationRound),
      elements.drop i = rest →
      (∀ round ∈ conv, gapBounded env elements round) →
      ∀ round ∈ StructureStrategy.fallbackSeqAux env elements rest i ue conv,
        gapBounded env elements round := by
  intro rest
  induction rest with
  | nil =>
    intro i ue conv _ hconv round hr
    exact hconv round hr
  | cons element rest ih =>
    intro i ue conv hdrop hconv round hr
    have hdrop' : elements.drop (i + 1) = rest := by
      rw [← List.tail_drop, hdrop]
      rfl
    have hlen : i < elements.length := by
      by_contra hge
      have hnil : elements.drop i = [] := List.drop_eq_nil_of_le (Nat.le_of_not_lt hge)
      rw [hdrop] at hnil; cases hnil
    have hget : elements.get ⟨i, hlen⟩ = element := by
      have h2 := List.drop_eq_getElem_cons hlen
      rw [hdrop] at h2
      injection h2 with ha _
      rw [List.get_eq_getElem]
      exact ha.symm
    cases ue with
    | none =>
      rw [fallbackSeqAux_cons_none] at hr
      by_cases hu : BaseStrategy.classifyMessage element = "user"
      · rw [if_pos hu] at hr
        exact ih (i + 1) (some element) conv hdrop' hconv round hr
      · rw [if_neg hu] at hr
        exact ih (i + 1) none conv hdrop' hconv round hr
    | some u =>
      rw [fallbackSeqAux_cons_some] at hr
      by_cases hu : BaseStrategy.classifyMessage element = "user"
      · rw [if_pos hu] at hr
        exact ih (i + 1) (some element) conv hdrop' hconv round hr
      · rw [if_neg hu] at hr
        by_cases ha : BaseStrategy.classifyMessage element = "assistant"
        · rw [if_pos ha] at hr
          by_cases hgap : i - elements.indexOf u ≤ 3
          · rw [if_pos hgap] at hr
            refine ih (i + 1) none _ hdrop' ?_ round hr
            intro rd hrd
            rcases List.mem_append.mp hrd with h1 | h1
            · exact hconv rd h1
            · rw [List.mem_singleton] at h1
              subst h1
              exact ⟨u, element, conv.length + 1, i, hlen, hget, rfl, ha, by omega⟩
          · rw [if_neg hgap] at hr
            exact ih (i + 1) (some u) conv hdrop' hconv round hr
        · rw [if_neg ha] at hr
          exact ih (i + 1) (some u) conv hdrop' hconv round hr

theorem extractFromDOMAux_rounds (env : Env) (elements : List Elem) :
    ∀ (rest : List Elem) (i : Nat) (ue : Option Elem) (conv : List ConversationRound),
      elements.drop i = rest →
      (∀ u, ue = some u →
        ∃ j, ∃ hj : j < elements.length, j + 1 = i ∧ elements.get ⟨j, hj⟩ = u) →
      (∀ round ∈ conv, adjacentPaired env elements round) →
      ∀ round ∈ ReactStrategy.extractFromDOMAux env rest ue conv,
        adjacentPaired env elements round := by
  intro rest
  induction rest with
  | nil => intro i ue conv _ _ hconv round hr; exact hconv round hr
  | cons element rest ih =>
    intro i ue conv hdrop hue hconv round hr
    have hdrop' : elements.drop (i + 1) = rest := by
      rw [← List.tail_drop, hdrop]
      rfl
    have hlen : i < elements.length := by
      by_contra hge
      have hnil : elements.drop i = [] := List.drop_eq_nil_of_le (Nat.le_of_not_lt hge)
      rw [hdrop] at hnil; cases hnil
    have hget : elements.get ⟨i, hlen⟩ = element := by
      have h2 := List.drop_eq_getElem_cons hlen
      rw [hdrop] at h2
      injection h2 with ha _
      rw [List.get_eq_getElem]
      exact ha.symm
    cases ue with
    | none =>
      rw [extractFromDOMAux_cons_none] at hr
      by_cases hu : BaseStrategy.classifyMessage element = "user"
      · rw [if_pos hu] at hr
        refine ih (i + 1) (some element) conv hdrop' ?_ hconv round hr
        intro u huu
        injection huu with huu
        subst huu
        exact ⟨i, hlen, rfl, hget⟩
      · rw [if_neg hu] at hr
        exact ih (i + 1) none conv hdrop' (by intro u h; cases h) hconv round hr
    | some u =>
      rw [extractFromDOMAux_cons_some] at hr
      by_cases hu : BaseStrategy.classifyMessage element = "user"
      · rw [if_pos hu] at hr
        refine ih (i + 1) (some element) conv hdrop' ?_ hconv round hr
        intro u' huu
        injection huu with huu
        subst huu
        exact ⟨i, hlen, rfl, hget⟩
      · rw [if_neg hu] at hr
        by_cases ha : BaseStrategy.classifyMessage element = "assistant"
        · rw [if_pos ha] at hr
          refine ih (i + 1) none _ hdrop' (by intro u' h; cases h) ?_ round hr
          intro rd hrd
          rcases List.mem_append.mp hrd with h1 | h1
          · exact hconv rd h1
          · rw [List.mem_singleton] at h1
            subst h1
            obtain ⟨j, hj, hji, hgu⟩ := hue u rfl
            subst hji
            exact ⟨u, element, conv.length + 1, j, hlen, hgu, hget, rfl, ha⟩
        · rcases classifyMessage_cases element with h | h
          · exact absurd h hu
          · exact absurd h ha

/-- C4: neither DOM-level sequential fallback pairing path ever emits a
round whose assistant-classified element sits more than 3 positions after
the remembered user: the Structural Clustering fallback checks
`i - elements.indexOf(user) ≤ 3` explicitly and, beyond the gap, ignores
the assistant while keeping the remembered user (second conjunct); the
Framework Probe DOM fallback only ever pairs an assistant with the element
remembered immediately before it, so its gap is always 1. -/
theorem sequential_pairing_gap_bound :
    (∀ (env : Env) (elements : List Elem) (round : ConversationRound),
       round ∈ StructureStrategy.fallbackToSequentialPairing env elements →
       gapBounded env elements round)
    ∧ (∀ (env : Env) (elements : List Elem) (element : Elem) (rest : List Elem)
         (i : Nat) (u : Elem) (conv : List ConversationRound),
       BaseStrategy.classifyMessage element = "assistant" →
       ¬ (i - elements.indexOf u ≤ 3) →
       StructureStrategy.fallbackSeqAux env elements (element :: rest) i (some u) conv
         = StructureStrategy.fallbackSeqAux env elements rest (i + 1) (some u) conv)
    ∧ (∀ (env : Env) (elements : List Elem) (round : ConversationRound),
       round ∈ (ReactStrategy.extractFromDOM env elements).conversation →
       adjacentPaired env elements round) := by
  refine ⟨?_, ?_, ?_⟩
  · intro env elements round hr
    exact fallbackSeqAux_rounds env elements elements 0 none []
      (List.drop_zero elements) (by intro rd h; cases h) round hr
  · intro env elements element rest i u conv ha hgap
    have hu : ¬ BaseStrategy.classifyMessage element = "user" := by
      rw [ha]; decide
    rw [fallbackSeqAux_cons_some, if_neg hu, if_pos ha, if_neg hgap]
  · intro env elements round hr
    have hr' : round ∈ ReactStrategy.extractFromDOMAux env elements none [] := hr
    exact extractFromDOMAux_rounds env elements elements 0 none []
      (List.drop_zero elements) (by intro u h; cases h) (by intro rd h; cases h) round hr'

/-- C4 witness: at a concrete state, a beyond-gap assistant is ignored and
the remembered user kept. -/
theorem sequential_pairing_gap_bound_witness :
    StructureStrategy.fallbackSeqAux envW [] [eA4] 7 (some eU4) []
      = StructureStrategy.fallbackSeqAux envW [] [] 8 (some eU4) [] :=
  sequential_pairing_gap_bound.2.1 envW [] eA4 [] 7 eU4 [] (by decide) (by decide)

/-! ## Lemmas about the clustering similarity walk -/

theorem mem_dedupFirst {α : Type} [DecidableEq α] {a : α} :
    ∀ {l : List α}, a ∈ dedupFirst l ↔ a ∈ l := by
  intro l
  induction l with
  | nil => simp [dedupFirst]
  | cons x rest ih =>
    simp only [dedupFirst, List.mem_cons, List.mem_filter, ih, decide_eq_true_eq]
    constructor
    · rintro (h | ⟨h1, _⟩)
      · exact Or.inl h
      · exact Or.inr h1
    · rintro (h | h)
      · exact Or.inl h
      · by_cases hax : a = x
        · exact Or.inl hax
        · exact Or.inr ⟨h, hax⟩

theorem nodup_dedupFirst {α : Type} [DecidableEq α] : ∀ (l : List α), (dedupFirst l).Nodup := by
  intro l
  induction l with
  | nil => simp [dedupFirst]
  | cons x rest ih =>
    simp only [dedupFirst]
    refine List.Nodup.cons ?_ (List.Nodup.filter _ ih)
    intro hmem
    have h := List.mem_filter.mp hmem
    simp at h

/-- The strict Jaccard threshold test of `isSimilarSignature`, restated as
a comparison of natural numbers (so that concrete instances evaluate). -/
theorem isSimilarSignature_natTest (sig1 sig2 : String) :
    StructureStrategy.isSimilarSignature sig1 sig2
      = decide (6 * (dedupFirst (dedupFirst (splitPred (fun c => c = Char.ofNat 124) sig1)
            ++ dedupFirst (splitPred (fun c => c = Char.ofNat 124) sig2))).length
          < 10 * ((dedupFirst (splitPred (fun c => c = Char.ofNat 124) sig1)).filter
              (fun x => (dedupFirst (splitPred (fun c => c = Char.ofNat 124) sig2)).contains x)).length) := by
  unfold StructureStrategy.isSimilarSignature
  rw [decide_eq_decide]
  set f1 := dedupFirst (splitPred (fun c => c = Char.ofNat 124) sig1) with hf1
  set f2 := dedupFirst (splitPred (fun c => c = Char.ofNat 124) sig2) with hf2
  set inter := f1.filter (fun x => f2.contains x) with hinter
  set union := dedupFirst (f1 ++ f2) with hunion
  have hnodup : inter.Nodup := List.Nodup.filter _ (nodup_dedupFirst _)
  have hle : inter.length ≤ union.length := by
    calc inter.length = inter.toFinset.card := (List.toFinset_card_of_nodup hnodup).symm
      _ ≤ union.toFinset.card := Finset.card_le_card (by
            intro x hx
            rw [List.mem_toFinset] at hx ⊢
            rw [hunion, mem_dedupFirst, List.mem_append]
            exact Or.inl (List.mem_of_mem_filter hx))
      _ ≤ union.length := List.toFinset_card_le _
  rcases Nat.eq_zero_or_pos union.length with hu | hu
  · have hi : inter.length = 0 := Nat.le_zero.mp (hu ▸ hle)
    rw [hu, hi]
    norm_num
  · rw [gt_iff_lt, div_lt_div_iff (by norm_num) (by exact_mod_cast hu)]
    constructor
    · intro h
      have h' : (6 * union.length : ℚ) < 10 * inter.length := by push_cast at h ⊢; linarith
      exact_mod_cast h'
    · intro h
      have h' : (6 * union.length : ℚ) < 10 * inter.length := by exact_mod_cast h
      push_cast at h' ⊢
      linarith

theorem siblingWalk_cons (cands : List Elem) (sig : String) (processed : List Elem)
    (s : Elem) (rest : List Elem) :
    StructureStrategy.siblingWalk cands sig processed (s :: rest)
      = if s ∈ cands ∧ s ∉ processed then
          if StructureStrategy.isSimilarSignature sig
              (StructureStrategy.calculateElementSignature s) then
            ((s :: (StructureStrategy.siblingWalk cands sig (processed ++ [s]) rest).1),
              (StructureStrategy.siblingWalk cands sig (processed ++ [s]) rest).2)
          else StructureStrategy.siblingWalk cands sig processed rest
        else ([], processed) := rfl

/-- C5 (amended): the sibling-extension walk stops at the first sibling
that is not a candidate or is already processed; a candidate, unprocessed
sibling that merely fails the similarity threshold is skipped — neither
added to the cluster nor marked processed — and the walk continues past it;
and every element the walk adds is one of the walked siblings, a candidate,
and similarity-passing. -/
theorem siblingWalk_characterization :
    (∀ (cands : List Elem) (sig : String) (processed : List Elem) (s : Elem) (rest : List Elem),
       (s ∉ cands ∨ s ∈ processed) →
       StructureStrategy.siblingWalk cands sig processed (s :: rest) = ([], processed))
    ∧ (∀ (cands : List Elem) (sig : String) (processed : List Elem) (s : Elem) (rest : List Elem),
       s ∈ cands → s ∉ processed →
       StructureStrategy.isSimilarSignature sig
         (StructureStrategy.calculateElementSignature s) = false →
       StructureStrategy.siblingWalk cands sig processed (s :: rest)
         = StructureStrategy.siblingWalk cands sig processed rest)
    ∧ (∀ (cands : List Elem) (sig : String) (sibs processed : List Elem) (e : Elem),
       e ∈ (StructureStrategy.siblingWalk cands sig processed sibs).1 →
       e ∈ sibs ∧ e ∈ cands
         ∧ StructureStrategy.isSimilarSignature sig
             (StructureStrategy.calculateElementSignature e) = true) := by
  refine ⟨?_, ?_, ?_⟩
  · intro cands sig processed s rest h
    rw [siblingWalk_cons, if_neg (by tauto)]
  · intro cands sig processed s rest h1 h2 hsim
    rw [siblingWalk_cons, if_pos ⟨h1, h2⟩, if_neg (by simp [hsim])]
  · intro cands sig sibs
    induction sibs with
    | nil =>
      intro processed e h
      simp [StructureStrategy.siblingWalk] at h
    | cons s rest ih =>
      intro processed e h
      rw [siblingWalk_cons] at h
      by_cases hc : s ∈ cands ∧ s ∉ processed
      · rw [if_pos hc] at h
        by_cases hsim : StructureStrategy.isSimilarSignature sig
            (StructureStrategy.calculateElementSignature s) = true
        · rw [if_pos hsim] at h
          simp only [List.mem_cons] at h
          rcases h with h | h
          · subst h; exact ⟨List.mem_cons_self _ _, hc.1, hsim⟩
          · obtain ⟨h1, h2, h3⟩ := ih (processed ++ [s]) e h
            exact ⟨List.mem_cons_of_mem _ h1, h2, h3⟩
        · rw [if_neg hsim] at h
          obtain ⟨h1, h2, h3⟩ := ih processed e h
          exact ⟨List.mem_cons_of_mem _ h1, h2, h3⟩
      · rw [if_neg hc] at h
        simp at h

/-- C5 witness: the walk stops immediately at a non-candidate sibling. -/
theorem siblingWalk_characterization_witness :
    StructureStrategy.siblingWalk [] sigSeed5 [] [eU4] = ([], []) :=
  siblingWalk_characterization.1 [] sigSeed5 [] eU4 [] (Or.inl (by simp))

/-- C5 counterexample: with the clustering candidates of `container5` and
seed signature `sigSeed5`, the previous-sibling walk `[e1five, e2five]`
does not stop at `e1five` — a candidate, unprocessed sibling failing the
similarity test — but skips it and still adds `e2five` beyond it, refuting
"the walk stops at the first sibling failing any of the three
conditions — no skipping gaps". -/
theorem siblingWalk_skips_dissimilar_cex :
    e1five ∈ StructureStrategy.candidateElements container5
    ∧ StructureStrategy.isSimilarSignature sigSeed5
        (StructureStrategy.calculateElementSignature e1five) = false
    ∧ (StructureStrategy.siblingWalk (StructureStrategy.candidateElements container5)
        sigSeed5 [] [e1five, e2five]).1 = [e2five] := by
  have hcands : StructureStrategy.candidateElements container5 = [e2five, e1five, seed5] := by
    decide
  have hs1 : StructureStrategy.isSimilarSignature sigSeed5
      (StructureStrategy.calculateElementSignature e1five) = false := by
    rw [isSimilarSignature_natTest]; decide
  have hs2 : StructureStrategy.isSimilarSignature sigSeed5
      (StructureStrategy.calculateElementSignature e2five) = true := by
    rw [isSimilarSignature_natTest]; decide
  have hw2 : StructureStrategy.siblingWalk [e2five, e1five, seed5] sigSeed5 [] [e2five]
      = ([e2five], [e2five]) := by
    rw [siblingWalk_cons, if_pos ⟨by decide, by decide⟩, if_pos hs2]
    rfl
  have hw1 : StructureStrategy.siblingWalk [e2five, e1five, seed5] sigSeed5 [] [e1five, e2five]
      = ([e2five], [e2five]) := by
    rw [siblingWalk_cons, if_pos ⟨by decide, by decide⟩, if_neg (by simp [hs1]), hw2]
  refine ⟨by decide, hs1, ?_⟩
  rw [hcands, hw1]

/-! ## The clustering candidate filter versus the 4.2 Candidate Filter -/

theorem clusterCandidateFilter_iff (e : Elem) :
    StructureStrategy.clusterCandidateFilter e = true ↔
      ((20 ≤ (strTrim e.textContent).length ∨ StructureStrategy.containsCode e = true)
        ∧ (0 < e.children.length ∨ 2 < StructureStrategy.calculateMaxDepth e 0)
        ∧ 10 < (strTrim e.textContent).length) := by
  unfold StructureStrategy.clusterCandidateFilter
  by_cases hg : (strTrim e.textContent).length < 20
      ∧ ¬ (StructureStrategy.containsCode e = true)
  · rw [if_pos hg]
    constructor
    · intro h; cases h
    · rintro ⟨h20, _, _⟩
      rcases h20 with h | h
      · exact absurd hg.1 (by omega)
      · exact absurd h hg.2
  · rw [if_neg hg]
    rw [Bool.and_eq_true, decide_eq_true_eq, decide_eq_true_eq]
    constructor
    · rintro ⟨hcx, h10⟩
      refine ⟨?_, hcx, h10⟩
      by_cases hcode : StructureStrategy.containsCode e = true
      · exact Or.inr hcode
      · left
        by_contra hlt
        exact hg ⟨by omega, hcode⟩
    · rintro ⟨_, hcx, h10⟩
      exact ⟨hcx, h10⟩

/-- C6 (amended): an element is a structural-clustering candidate exactly
when it lies under the container and satisfies (trimmed text length ≥ 20 ∨
contains code) ∧ (has children ∨ subtree depth > 2) ∧ trimmed text length
> 10.  The 4.2 Candidate Filter (`extractMessageElements`: message-ish
keyword, containment de-duplication) is not applied on this path, so a
clustering candidate need not satisfy it. -/
theorem candidateElements_characterization (container e : Elem) :
    e ∈ StructureStrategy.candidateElements container ↔
      (e ∈ container.descendants
        ∧ (20 ≤ (strTrim e.textContent).length ∨ StructureStrategy.containsCode e = true)
        ∧ (0 < e.children.length ∨ 2 < StructureStrategy.calculateMaxDepth e 0)
        ∧ 10 < (strTrim e.textContent).length) := by
  unfold StructureStrategy.candidateElements
  rw [List.mem_filter, clusterCandidateFilter_iff]

/-- C6 witness: the keyword-free element `e6cand` is a clustering
candidate of `container6`. -/
theorem candidateElements_characterization_witness :
    e6cand ∈ StructureStrategy.candidateElements container6 :=
  (candidateElements_characterization container6 e6cand).mpr (by decide)

/-- C6 counterexample: `e6cand` is used as a clustering candidate of
`container6` yet fails the 4.2 Candidate Filter qualification — it has no
message-ish keyword and is not in `extractMessageElements container6` —
refuting "every candidate element used by the structural clustering step
satisfies the Candidate Filter qualification of 4.2". -/
theorem clustering_candidates_skip_filter_cex :
    e6cand ∈ StructureStrategy.candidateElements container6
    ∧ BaseStrategy.messageElementFilter e6cand = false
    ∧ e6cand ∉ BaseStrategy.extractMessageElements container6 := by
  refine ⟨by decide, by decide, by decide⟩

/-- C7 (amended): `metadata.confidenceScore` is set by
`createExtractedConversation` to the arithmetic mean of the round
confidences of the conversation as constructed (0 when empty), and
`validateAndEnhance` leaves the field untouched; after validation drops
rounds it is therefore the pre-validation mean, not the mean over the
remaining rounds. -/
theorem confidence_score_set_at_construction :
    (∀ (env : Env) (conversation : List ConversationRound),
       (StructureStrategy.createExtractedConversation env conversation).metadata.confidenceScore
         = roundConfidenceMean conversation)
    ∧ (∀ (env : Env) (result : ExtractedConversation),
       (DOMIntelligentAnalyzer.validateAndEnhance env result).metadata.confidenceScore
         = result.metadata.confidenceScore) := by
  constructor
  · intro env conversation; rfl
  · intro env result; rfl

/-- C7 counterexample: in the concrete run the returned result's
`metadata.confidenceScore` is the pre-validation mean 1/2, while the mean
of the confidences of its (validated) conversation list is 1 — the claimed
equality fails once the validation pass has dropped the blank round. -/
theorem confidence_mean_not_recomputed_cex :
    DOMIntelligentAnalyzer.analyze envW 5 [Except.ok c7] = Except.ok r7final
    ∧ r7final.metadata.confidenceScore = 1/2
    ∧ roundConfidenceMean r7final.conversation = 1
    ∧ r7final.metadata.confidenceScore ≠ roundConfidenceMean r7final.conversation := by
  have hhalf : r7final.metadata.confidenceScore = 1/2 := by
    show (StructureStrategy.createExtractedConversation envW [r7a, r7b]).metadata.confidenceScore
      = 1/2
    norm_num [StructureStrategy.createExtractedConversation, r7a, r7b]
  have hfil : r7final.conversation = [r7a] := by decide
  have hmean : roundConfidenceMean r7final.conversation = 1 := by
    rw [hfil]
    norm_num [roundConfidenceMean, r7a]
  exact ⟨c7_analyze, hhalf, hmean, by rw [hhalf, hmean]; norm_num⟩

/-! ## Confidence bounds -/

theorem calculatePathSimilarity_nonneg (p1 p2 : List String) :
    0 ≤ StructureStrategy.calculatePathSimilarity p1 p2 := by
  unfold StructureStrategy.calculatePathSimilarity
  positivity

theorem calculateStyleSimilarity_nonneg (e1 e2 : Elem) :
    0 ≤ StructureStrategy.calculateStyleSimilarity e1 e2 := by
  unfold StructureStrategy.calculateStyleSimilarity
  positivity

theorem calculateStructureConfidence_bounds (u a : Elem) :
    0 ≤ StructureStrategy.calculateStructureConfidence u a
      ∧ StructureStrategy.calculateStructureConfidence u a ≤ 0.95 := by
  have hp := calculatePathSimilarity_nonneg (StructureStrategy.getElementPath u)
    (StructureStrategy.getElementPath a)
  have hs := calculateStyleSimilarity_nonneg u a
  unfold StructureStrategy.calculateStructureConfidence
  constructor
  · apply le_min
    · split
      · nlinarith
      · nlinarith
    · norm_num
  · exact min_le_right _ _

theorem calculateConfidence_bounds (u a : Elem) :
    0 ≤ ReactStrategy.calculateConfidence u a
      ∧ ReactStrategy.calculateConfidence u a ≤ 0.95 := by
  unfold ReactStrategy.calculateConfidence
  constructor
  · apply le_min
    · split <;> split <;> norm_num
    · norm_num
  · exact min_le_right _ _

/-- C8: every emitted round's `metadata.extractionConfidence` lies in
[0, 0.95] — hence in [0, 1] and never above 0.95: structural-clustering
rounds carry `calculateStructureConfidence` (base 0.6, adjustments capped
at 0.95), the probe's DOM-fallback rounds carry `calculateConfidence`
(base 0.7, capped at 0.95), and probe-derived rounds carry the fixed
0.9. -/
theorem extraction_confidence_bounds :
    (∀ (env : Env) (index : Nat) (u a : Elem),
       0 ≤ (StructureStrategy.createConversationRound env index u a).metadata.extractionConfidence
       ∧ (StructureStrategy.createConversationRound env index u a).metadata.extractionConfidence
           ≤ 0.95)
    ∧ (∀ (env : Env) (index : Nat) (u a : Elem),
       0 ≤ (ReactStrategy.createConversationRoundFromElements env index
              u a).metadata.extractionConfidence
       ∧ (ReactStrategy.createConversationRoundFromElements env index
            u a).metadata.extractionConfidence ≤ 0.95)
    ∧ (∀ (env : Env) (index : Nat) (um am : ReactStrategy.ReactMsg),
       (ReactStrategy.createConversationRound env index um am).metadata.extractionConfidence
         = 0.9) := by
  refine ⟨?_, ?_, ?_⟩
  · intro env index u a
    exact calculateStructureConfidence_bounds u a
  · intro env index u a
    exact calculateConfidence_bounds u a
  · intro env index um am
    rfl

/-! ## `isMessageComponent` and the Candidate Filter qualification -/

/-- C9 (amended): `isMessageComponent` matches exactly when the resolved
type is truthy and one of the implementation's indicators holds: the type
name contains "message"/"chat"/"bubble", some prop key contains "message",
some prop key contains "role", or the `role` prop equals
"user"/"assistant".  Prop keys containing only "chat"/"bubble" do not
match; prop keys containing "role" do. -/
theorem isMessageComponent_characterization (c : ReactStrategy.ComponentNode) :
    ReactStrategy.isMessageComponent c = true ↔
      ∃ tn, c.type = some tn
        ∧ (strContains (strToLower tn) "message" = true
          ∨ strContains (strToLower tn) "chat" = true
          ∨ strContains (strToLower tn) "bubble" = true
          ∨ (∃ key ∈ c.propKeys, strContains (strToLower key) "message" = true)
          ∨ (∃ key ∈ c.propKeys, strContains (strToLower key) "role" = true)
          ∨ c.roleProp = some "user" ∨ c.roleProp = some "assistant") := by
  unfold ReactStrategy.isMessageComponent
  cases htype : c.type with
  | none => simp
  | some tn => simp [List.any_eq_true]

/-- C9 witness: a node whose only indicator is a "role"-containing prop key
matches. -/
theorem isMessageComponent_characterization_witness :
    ReactStrategy.isMessageComponent c9node = true :=
  (isMessageComponent_characterization c9node).mpr ⟨"Row", rfl, by decide⟩

/-- C9 counterexample: `c9node` (type name "Row", prop keys ["userRole"],
no role prop) is matched by the implementation — a prop key contains
"role" — but not by the claimed condition, whose prop-key keywords are only
"message"/"chat"/"bubble"; this refutes the claim's "exactly when". -/
theorem isMessageComponent_role_key_cex :
    ReactStrategy.isMessageComponent c9node = true
    ∧ isMessageComponentClaim c9node = false :=
  ⟨by decide, by decide⟩

/-- `dedupByContainment` only removes elements. -/
theorem mem_of_mem_dedupByContainment {e : Elem} {cands : List Elem}
    (h : e ∈ BaseStrategy.dedupByContainment cands) : e ∈ cands := by
  unfold BaseStrategy.dedupByContainment at h
  obtain ⟨p, hmem, hp⟩ := List.mem_map.mp h
  have hpe := List.mem_of_mem_filter hmem
  have h2 : e ∈ cands.enum.map Prod.snd := List.mem_map.mpr ⟨p, hpe, hp⟩
  rwa [List.enum_map_snd] at h2

theorem messageElementFilter_iff (e : Elem) :
    BaseStrategy.messageElementFilter e = true ↔
      ((e.textContent = "" ∨ 10 ≤ (strTrim e.textContent).length)
        ∧ (strContains (strToLower e.outerHTML) "message" = true
          ∨ strContains (strToLower e.outerHTML) "bubble" = true
          ∨ strContains (strToLower e.outerHTML) "chat" = true
          ∨ strContains (strToLower e.className) "message" = true)) := by
  unfold BaseStrategy.messageElementFilter
  by_cases hg : e.textContent ≠ "" ∧ (strTrim e.textContent).length < 10
  · rw [if_pos hg]
    constructor
    · intro h; cases h
    · rintro ⟨h1, _⟩
      rcases h1 with h | h
      · exact absurd h hg.1
      · exact absurd hg.2 (by omega)
  · rw [if_neg hg]
    simp only [decide_eq_true_eq]
    constructor
    · intro hk
      refine ⟨?_, hk⟩
      by_cases he : e.textContent = ""
      · exact Or.inl he
      · right
        have hlen := not_and.mp hg he
        omega
    · rintro ⟨_, hk⟩
      exact hk

/-- C10 (amended): every node in the list returned by the Candidate Filter
(`extractMessageElements`) has a message-ish keyword ("message", "bubble"
or "chat") in its lower-cased markup, or "message" in its class text, and
has either empty text — the JavaScript truthiness guard skips the size
check when `textContent` is the empty string — or trimmed text length
≥ 10. -/
theorem extractMessageElements_qualification (container e : Elem)
    (h : e ∈ BaseStrategy.extractMessageElements container) :
    (strContains (strToLower e.outerHTML) "message" = true
      ∨ strContains (strToLower e.outerHTML) "bubble" = true
      ∨ strContains (strToLower e.outerHTML) "chat" = true
      ∨ strContains (strToLower e.className) "message" = true)
    ∧ (e.textContent = "" ∨ 10 ≤ (strTrim e.textContent).length) := by
  unfold BaseStrategy.extractMessageElements at h
  have h1 := mem_of_mem_dedupByContainment h
  have h2 := (List.mem_filter.mp h1).2
  have h3 := (messageElementFilter_iff e).mp h2
  exact ⟨h3.2, h3.1⟩

/-- C10 witness: the qualification holds for the concrete returned node. -/
theorem extractMessageElements_qualification_witness :
    (strContains (strToLower e10.outerHTML) "message" = true
      ∨ strContains (strToLower e10.outerHTML) "bubble" = true
      ∨ strContains (strToLower e10.outerHTML) "chat" = true
      ∨ strContains (strToLower e10.className) "message" = true)
    ∧ (e10.textContent = "" ∨ 10 ≤ (strTrim e10.textContent).length) :=
  extractMessageElements_qualification container10 e10 (by decide)

/-- C10 counterexample: the empty-text element `e10` is in the Candidate
Filter's returned list although its trimmed text length is 0 < 10,
refuting "every node in the ordered list ... has trimmed text length
≥ 10". -/
theorem message_elements_empty_text_cex :
    e10 ∈ BaseStrategy.extractMessageElements container10
    ∧ (strTrim e10.textContent).length < 10 :=
  ⟨by decide, by decide⟩
